import Mathlib

/-!
Shallow embedding of the ai-analyzer-service job lifecycle engine.

Sources embedded here:
* `src/app/tasks.py` — `analyze_document_task` (the analysis job state machine),
  including the inline issue-extraction step (regex + json parse) and the
  batch-insert / verification phase;
* `src/app/routers/analyzer.py` — `analyze_doc`, `get_task_status`, `get_result`;
* `src/app/models/analyzed_doc.py` — the persisted `AnalyzedDocIssues` row.

External collaborators (the chunking service, the inference client, the JSON
decoder of the standard library, and the commit behaviour of the SQL engine) are
modelled as parameters of an `Env` record; the relational store is modelled as
an ordered list of rows (insertion order), which is how the code uses it
(append-only batch insert, filter by `document_id`, count, delete-all).
Python float arithmetic on progress values is modelled by exact rationals;
every progress constant that appears in the code (0, 25, 90, 100 and
`25 + (i / total_chunks) * 75`) is reproduced exactly.
-/

namespace AIAnalyzer

/-- The opening brace character (written numerically to keep string literals
plain). -/
def lbrace : Char := Char.ofNat 123

/-- The closing brace character. -/
def rbrace : Char := Char.ofNat 125

/-- A Python exception value, as far as the handlers of the task distinguish them.
`name` models `type(e).__name__` and `msg` models `str(e)`. -/
inductive PyExc where
  | keyError (key : String)
  | typeError (msg : String)
  | httpStatusError (msg : String)
  | validationError (msg : String)
  | dbError (msg : String)
  | otherExc (name msg : String)
deriving Repr, DecidableEq

/-- `type(e).__name__`. -/
def PyExc.name : PyExc → String
  | .keyError _ => "KeyError"
  | .typeError _ => "TypeError"
  | .httpStatusError _ => "HTTPStatusError"
  | .validationError _ => "ValidationError"
  | .dbError _ => "OperationalError"
  | .otherExc n _ => n

/-- `str(e)` (for `KeyError` Python prints the missing key in quotes). -/
def PyExc.msg : PyExc → String
  | .keyError k => String.singleton (Char.ofNat 39) ++ k ++ String.singleton (Char.ofNat 39)
  | .typeError m => m
  | .httpStatusError m => m
  | .validationError m => m
  | .dbError m => m
  | .otherExc _ m => m

/-- One element of the `issues` list of a parsed payload: a JSON object whose
`"text"` and `"severity"` keys may each be absent (the code reads them with
`issue["text"]` / `issue["severity"]`, which raises `KeyError` when absent). -/
structure IssueObj where
  text : Option String
  severity : Option String
deriving Repr, DecidableEq

/-- A persisted row of the `analyzed_docs` table
(`src/app/models/analyzed_doc.py`). -/
structure IssueRow where
  id : Nat
  document_id : Int
  issue : String
  severity : String
deriving Repr, DecidableEq

/-- The relational store, scoped to the one table the service owns: rows in
insertion order plus the next surrogate key. -/
structure DB where
  rows : List IssueRow
  nextId : Nat
deriving Repr, DecidableEq

/-- `select(AnalyzedDocIssues).where(document_id == doc_id).limit(1)` scalar
truthiness: does any row exist for this document? -/
def DB.existsFor (db : DB) (docId : Int) : Bool :=
  db.rows.any fun r => r.document_id == docId

/-- `delete(AnalyzedDocIssues).where(document_id == doc_id)` + commit. -/
def DB.deleteAll (db : DB) (docId : Int) : DB :=
  { db with rows := db.rows.filter fun r => r.document_id != docId }

/-- `select(func.count(AnalyzedDocIssues.id)).where(document_id == doc_id)`. -/
def DB.countFor (db : DB) (docId : Int) : Nat :=
  (db.rows.filter fun r => r.document_id == docId).length

/-- Batch `insert(AnalyzedDocIssues)` with a list of
`(document_id, issue, severity)` value rows, committed; ids are assigned in
list order. -/
def DB.insertBatch (db : DB) (vals : List (Int × String × String)) : DB :=
  { rows := db.rows ++ (List.enumFrom db.nextId vals).map fun kv =>
      { id := kv.1, document_id := kv.2.1,
        issue := kv.2.2.1, severity := kv.2.2.2 }
    nextId := db.nextId + vals.length }

/-- The top-level JSON object the extractor cares about, after a successful
`json.loads`: only its `"status"` field and its `"issues"` list are read (via
`.get`, hence each may be absent). -/
structure ParsedObj where
  status : Option String
  issues : Option (List IssueObj)
deriving Repr, DecidableEq

/-- The external collaborators of one job execution. -/
structure Env where
  /-- `json.loads` on the brace-delimited candidate substring; `none` models a
  raised `json.JSONDecodeError`. -/
  parse : String → Option ParsedObj
  /-- The chunk fetch (`GET …/chunks` + `raise_for_status` + pydantic
  validation): either the list of chunk texts, in response order, or the
  exception the fetch raised. -/
  fetch : Except PyExc (List String)
  /-- `analyze_chunk_with_ollama(chunk_text, language=language)` followed by
  `response["message"]["content"]`: raw model output text, or a raised
  transport/inference error. -/
  infer : String → String → Except PyExc String
  /-- Whether `session.execute(insert(...))` / `session.commit()` for the
  batch insert raises (e.g. the database is down). `none` means the commit
  succeeds and durably appends every row. -/
  insertError : Option PyExc

/-- Index of the first `{` in the text, if any. -/
def firstBraceIdx (cs : List Char) : Option Nat :=
  cs.findIdx? (· == lbrace)

/-- Index of the last `}` in the text, if any. -/
def lastCloseIdx (cs : List Char) : Option Nat :=
  match cs.reverse.findIdx? (· == rbrace) with
  | none => none
  | some k => some (cs.length - 1 - k)

/-- `re.search(r"\x7b.*\x7d", response_text, re.DOTALL)` with a greedy `.*`:
the match, when it exists, runs from the first `{` to the last `}` of the
whole text, and it exists iff some `}` occurs strictly after the first `{`. -/
def braceMatch (s : String) : Option String :=
  let cs := s.toList
  match firstBraceIdx cs, lastCloseIdx cs with
  | some i, some j => if i < j then some ((cs.drop i).take (j - i + 1)).asString else none
  | _, _ => none

/-- The inline per-chunk extraction step of `analyze_document_task`
(`src/app/tasks.py` lines 88–94): regex search, guarded `json.loads` (a decode
error is caught and only logged), then the `status == "issues_found"` check;
in every non-matching case the chunk contributes zero issues. -/
def extractIssues (parse : String → Option ParsedObj) (response_text : String) :
    List IssueObj :=
  match braceMatch response_text with
  | none => []
  | some s =>
    match parse s with
    | none => []
    | some p => if p.status == some "issues_found" then p.issues.getD [] else []

/-- The mutable `result` dict of `analyze_document_task`, with one optional
field per key the code ever writes. -/
structure TaskResult where
  document_id : Int
  analysis_result : String
  issues_found : Option (List IssueObj) := none
  error : Option String := none
  progress : Rat := 0
  current_chunk : Option Nat := none
  total_chunks : Option Nat := none
  inserted_issues : Option Nat := none
  expected_issues : Option Nat := none
  exc_type : Option String := none
  exc_message : Option String := none
deriving Repr, DecidableEq

/-- The observable events of one task execution: `self.update_state` calls
(with their state string and meta snapshot), the chunk-service fetch, and each
inference call. -/
inductive Ev where
  | update (state : String) (meta : TaskResult)
  | fetchChunks
  | infer (idx : Nat) (chunkText : String)
deriving Repr, DecidableEq

/-- The initial `result` dict (tasks.py lines 22–28). -/
def initResult (docId : Int) : TaskResult :=
  { document_id := docId, analysis_result := "processing" }

/-- The per-chunk loop (tasks.py lines 71–94): for the chunk at 1-based index
`i`, first `result.update` + `self.update_state` with the checkpoint
`25 + (i / total_chunks) * 75`, then the inference call, then the extraction
step; an inference error aborts the loop (and, upstream, the whole job). -/
def chunkLoop (env : Env) (language : String) (n : Nat) (r : TaskResult)
    (issues : List IssueObj) (i : Nat) :
    List String → List Ev × Except PyExc (TaskResult × List IssueObj)
  | [] => ([], .ok (r, issues))
  | c :: rest =>
    let prog : Rat := 25 + ((i : Rat) / (n : Rat)) * 75
    let r1 := { r with progress := prog, current_chunk := some i, total_chunks := some n }
    let evs0 := [Ev.update "PROGRESS" r1, Ev.infer i c]
    match env.infer c language with
    | .error e => (evs0, .error e)
    | .ok text =>
      let out := chunkLoop env language n r1 (issues ++ extractIssues env.parse text) (i + 1) rest
      (evs0 ++ out.1, out.2)

/-- The values list built by the list comprehension of the insert (tasks.py lines
115–122): `issue["text"]` / `issue["severity"]` raise `KeyError` on a missing
key, before anything is sent to the database. -/
def buildInsertValues (docId : Int) : List IssueObj →
    Except PyExc (List (Int × String × String))
  | [] => .ok []
  | is :: rest =>
    match is.text with
    | none => .error (.keyError "text")
    | some t =>
      match is.severity with
      | none => .error (.keyError "severity")
      | some sv =>
        match buildInsertValues docId rest with
        | .error e => .error e
        | .ok vs => .ok ((docId, t, sv) :: vs)

/-- The insert block of `analyze_document_task` (tasks.py lines 111–153),
entered only when `issues_found` is non-empty: build the values list, execute
+ commit the batch insert, re-count the persisted rows for the document, and
classify; any exception in the block is caught, the session rolled back, and
the job classified `completed_with_issues_but_insert_failed` with the error
string captured. -/
def persistPhase (env : Env) (db : DB) (docId : Int) (r : TaskResult)
    (issues : List IssueObj) : DB × TaskResult :=
  match buildInsertValues docId issues with
  | .error e =>
    (db, { r with analysis_result := "completed_with_issues_but_insert_failed",
                  error := some e.msg })
  | .ok vals =>
    match env.insertError with
    | some e =>
      (db, { r with analysis_result := "completed_with_issues_but_insert_failed",
                    error := some e.msg })
    | none =>
      let db2 := db.insertBatch vals
      let cnt := db2.countFor docId
      if issues.length ≤ cnt then
        (db2, { r with progress := 100, analysis_result := "completed_with_issues",
                       inserted_issues := some cnt })
      else
        (db2, { r with analysis_result := "completed_with_issues_but_insert_failed",
                       expected_issues := some issues.length,
                       inserted_issues := some cnt })

/-- Python line 159: `raise { "exc_type": …, … }` — the raised value is a
dict, not a `BaseException`, so CPython raises
`TypeError: exceptions must derive from BaseException` instead; the dict
payload and the original exception are both discarded. -/
def raisedDict (_e : PyExc) (_docId : Int) : PyExc :=
  .typeError "exceptions must derive from BaseException"

/-- `_async_analyze` (tasks.py lines 16–167): initial state emission,
existence short-circuit, optional retry delete, progress-25 emission, chunk
fetch, the per-chunk loop, terminal classification and the insert block.
Returns the emitted events, the final database state, and either the `result`
dict or the exception that escaped. -/
def runAsyncAnalyze (env : Env) (db : DB) (docId : Int) (language : String)
    (retry : Bool) : List Ev × DB × Except PyExc TaskResult :=
  let r0 := initResult docId
  let evs0 := [Ev.update "PROGRESS" r0]
  if db.existsFor docId && !retry then
    (evs0, db, .ok { r0 with analysis_result := "exists", progress := 100 })
  else
    let db1 := if retry then db.deleteAll docId else db
    let r1 := { r0 with progress := 25 }
    let evs1 := evs0 ++ [Ev.update "PROGRESS" r1]
    match env.fetch with
    | .error e => (evs1 ++ [Ev.fetchChunks], db1, .error (raisedDict e docId))
    | .ok chunks =>
      let n := chunks.length
      let loopOut := chunkLoop env language n r1 [] 1 chunks
      let evs2 := evs1 ++ [Ev.fetchChunks] ++ loopOut.1
      match loopOut.2 with
      | .error e => (evs2, db1, .error (raisedDict e docId))
      | .ok (r2, issues) =>
        if issues.isEmpty then
          (evs2, db1, .ok { r2 with analysis_result := "completed_no_issues",
                                    progress := 100 })
        else
          let r3 := { r2 with
            analysis_result := "completed_with_issues_but_not_inserted",
            issues_found := some issues, progress := 90 }
          let pp := persistPhase env db1 docId r3 issues
          (evs2, pp.1, .ok pp.2)

/-- The celery task wrapper (tasks.py lines 169–194): on a normal return it
emits a final `SUCCESS` (or, for a `"failed"` result dict, `FAILURE`) state
with the result as meta and returns it; on an escaped exception it builds the
`error_result` dict from the exception actually received (the
`isinstance(e, dict)` branch is unreachable — Python cannot raise a dict),
emits `FAILURE` with it, and re-raises the exception across the queue
boundary (`raise self.retry(exc=e) if retry else e`). -/
def analyze_document_task (env : Env) (db : DB) (docId : Int)
    (language : String) (retry : Bool) : List Ev × DB × Except PyExc TaskResult :=
  match runAsyncAnalyze env db docId language retry with
  | (evs, db1, .ok result) =>
    if result.analysis_result == "failed" then
      (evs ++ [Ev.update "FAILURE" result], db1, .ok result)
    else
      (evs ++ [Ev.update "SUCCESS" result], db1, .ok result)
  | (evs, db1, .error e) =>
    let error_result : TaskResult :=
      { document_id := docId, analysis_result := "failed", progress := 100,
        exc_type := some e.name, exc_message := some e.msg }
    (evs ++ [Ev.update "FAILURE" error_result], db1, .error e)

/-! ### Router models (`src/app/routers/analyzer.py`) -/

/-- Response schema of `POST /analyze/...`: the effective
`AnalysisStatusResponse` of `src/app/schemas/analyzer.py` lines 41–45 (the
second declaration of that name, which shadows the first). The schema declares
`task_id: int`, so a response may only be produced when the task id value
passes pydantic validation for `int`. -/
structure AnalysisStatusResponse where
  status : String
  message : String
  document_id : Int
  task_id : Int
deriving Repr, DecidableEq

/-- Decimal value of a digit run. -/
def digitsToNat (cs : List Char) : Nat :=
  cs.foldl (fun acc c => acc * 10 + (c.toNat - 48)) 0

/-- Pydantic v2 lax coercion of a string value into an `int`-typed field
(modelled from the pydantic contract, an external collaborator): the string is
accepted exactly when it is an optionally `-`-signed non-empty run of decimal
digits; any other string raises `ValidationError` when the model is
constructed. A queue-assigned UUID task id (hex blocks separated by hyphens)
is never such a literal. -/
def pydanticCoerceInt (s : String) : Option Int :=
  match s.toList with
  | [] => none
  | c :: rest =>
    if c == '-' then
      if !rest.isEmpty && rest.all (·.isDigit) then
        some (-(digitsToNat rest : Int))
      else none
    else
      if (c :: rest).all (·.isDigit) then some ((digitsToNat (c :: rest) : Int))
      else none

/-- `AllowedLanguage`: the literal type over `ru` and `en`. -/
def allowedLanguage (language : String) : Bool :=
  language == "ru" || language == "en"

/-- `analyze_doc` (`analyzer.py` lines 19–33) together with the FastAPI
parameter validation (`Path(ge=0)` and the language literal) and the response
construction. On invalid input the framework answers 422 before the handler
body — and hence the task dispatch — ever runs. On valid input the handler
first dispatches the queue task (line 26) and then constructs
`AnalysisStatusResponse(..., task_id=task.id)` (lines 28–33): since the schema
types `task_id` as `int` while the queue id is a string, the construction
raises `ValidationError` whenever the id does not coerce to an integer, and
the unhandled exception escapes the handler as a 500 response — after the
task was already dispatched. Returns the HTTP status, the 202 body when one is
produced, and whether a queue task was dispatched. `dispatch` models
`analyze_document_task.delay`, returning the id of the new task. -/
def analyze_doc (dispatch : Int → String → Bool → String) (doc_id : Int)
    (language : String) (retry : Bool) :
    Nat × Option AnalysisStatusResponse × Bool :=
  if doc_id < 0 || !allowedLanguage language then
    (422, none, false)
  else
    let tid := dispatch doc_id language retry
    match pydanticCoerceInt tid with
    | none => (500, none, true)
    | some n =>
      (202, some { status := "accepted",
                   message := "Analysis started for document " ++ toString doc_id,
                   document_id := doc_id, task_id := n }, true)

/-- The queue view of a task, as `AsyncResult` exposes it: `successful()`
with a stored result dict, `failed()` with a stored error value, or any other
status string. -/
inductive QueueState where
  | success (result : TaskResult)
  | failure (error : String)
  | otherState (status : String)
deriving Repr, DecidableEq

/-- `AsyncResult.status`. -/
def QueueState.statusStr : QueueState → String
  | .success _ => "SUCCESS"
  | .failure _ => "FAILURE"
  | .otherState s => s

/-- Response body of `GET /analyze/status/{task_id}`. -/
structure StatusResponse where
  task_id : String
  task_status : String
  document_id : Option Int := none
  analysis_result : Option String := none
  issues_found : Option Bool := none
  progress : Rat := 0
  error : Option String := none
  issues_count : Option Nat := none
deriving Repr, DecidableEq

/-- `get_task_status` (`analyzer.py` lines 39–106). Returns the response and
whether the persisted-row count query was executed. Note the two literal
strings the SUCCESS branch matches: `"completed_no_issues"`, and
`"completed_with_issues"` / `"completed_with_issues_and_failed_to_inserted"`;
any other stored `analysis_result` falls through with the defaults. -/
def get_task_status (db : DB) (taskId : String) (q : QueueState) :
    StatusResponse × Bool :=
  let base : StatusResponse := { task_id := taskId, task_status := q.statusStr }
  match q with
  | .success result =>
    let base := { base with document_id := some result.document_id }
    if result.analysis_result == "completed_no_issues" then
      ({ base with analysis_result := some "completed", issues_found := some false,
                   progress := 100 }, false)
    else if result.analysis_result == "completed_with_issues" ||
            result.analysis_result == "completed_with_issues_and_failed_to_inserted" then
      if result.progress == 100 then
        let cnt := db.countFor result.document_id
        ({ base with analysis_result := some "completed",
                     issues_found := some (decide (0 < cnt)), progress := 100,
                     issues_count := some cnt }, true)
      else
        ({ base with analysis_result := some "processing",
                     progress := result.progress }, false)
    else (base, false)
  | .failure err =>
    ({ base with analysis_result := some "failed", error := some err,
                 progress := 100, issues_found := some false }, false)
  | .otherState _ => (base, false)

/-- `get_result` (`analyzer.py` lines 186–195): all persisted rows for the
document, in table (= insertion) order. -/
def get_result (db : DB) (docId : Int) : List IssueRow :=
  db.rows.filter fun row => row.document_id == docId

/-! ### Trace helpers -/

/-- The progress values of the `PROGRESS`-state `update_state` emissions, in
emission order. -/
def progressUpdates (evs : List Ev) : List Rat :=
  evs.filterMap fun e =>
    match e with
    | Ev.update s m => if s == "PROGRESS" then some m.progress else none
    | _ => none

/-- The progress values of all `update_state` emissions (any state), in
emission order. -/
def emittedProgress (evs : List Ev) : List Rat :=
  evs.filterMap fun e =>
    match e with
    | Ev.update _ m => some m.progress
    | _ => none

/-- `true` iff the trace contains neither the chunk-service fetch nor any
inference call. -/
def noCollaboratorCalls (evs : List Ev) : Bool :=
  evs.all fun e =>
    match e with
    | Ev.fetchChunks => false
    | Ev.infer _ _ => false
    | _ => true

/-- `true` iff the trace contains no inference call. -/
def noInferCalls (evs : List Ev) : Bool :=
  evs.all fun e =>
    match e with
    | Ev.infer _ _ => false
    | _ => true

end AIAnalyzer

namespace AIAnalyzer

/-! ### Concrete environments used by counterexamples and witnesses -/

/-- The empty store. -/
def db0 : DB := { rows := [], nextId := 1 }

/-- A decoder recognising exactly the raw output `"\x7bj\x7d"` as a payload
with one well-formed issue. -/
def parseOneIssue : String → Option ParsedObj := fun s =>
  if s == "\x7bj\x7d" then
    some { status := some "issues_found",
           issues := some [{ text := some "x", severity := some "minor" }] }
  else none

/-- One chunk, one extracted issue, and a failing batch insert. -/
def envInsertFail : Env :=
  { parse := parseOneIssue, fetch := .ok ["c"],
    infer := fun _ _ => .ok "\x7bj\x7d", insertError := some (.dbError "db down") }

/-- Seven chunks whose model outputs contain no JSON payload. -/
def envSeven : Env :=
  { parse := fun _ => none, fetch := .ok (List.replicate 7 "c"),
    infer := fun _ _ => .ok "plain", insertError := none }

/-- A chunk fetch that raises `HTTPStatusError` (non-2xx upstream response). -/
def envFetchFail : Env :=
  { parse := fun _ => none, fetch := .error (.httpStatusError "Server error 500"),
    infer := fun _ _ => .ok "", insertError := none }

/-- The result dict `analyze_document_task` hands the queue when the batch
insert of one found issue raises: note `progress = 90`, not 100. -/
def insertFailedResult : TaskResult :=
  { document_id := 7, analysis_result := "completed_with_issues_but_insert_failed",
    issues_found := some [{ text := some "x", severity := some "minor" }],
    error := some "db down", progress := 90,
    current_chunk := some 1, total_chunks := some 1 }

/-- A decoder yielding one issue object that lacks the `"severity"` key. -/
def parseMissingSeverity : String → Option ParsedObj := fun s =>
  if s == "\x7bj\x7d" then
    some { status := some "issues_found",
           issues := some [{ text := some "x", severity := none }] }
  else none

/-- One chunk whose payload carries a single issue lacking `"severity"`; the insert
commit itself would succeed. -/
def envKeyError : Env :=
  { parse := parseMissingSeverity, fetch := .ok ["c"],
    infer := fun _ _ => .ok "\x7bj\x7d", insertError := none }

/-- The result the task returns for `envKeyError`: the `KeyError` string is
captured and the job is not `failed`. -/
def keyErrorResult : TaskResult :=
  { document_id := 2, analysis_result := "completed_with_issues_but_insert_failed",
    issues_found := some [{ text := some "x", severity := none }],
    error := some (PyExc.keyError "severity").msg, progress := 90,
    current_chunk := some 1, total_chunks := some 1 }

/-! ### Basic persistence lemmas -/

theorem get_result_eq_nil_of_not_existsFor {db : DB} {docId : Int}
    (h : db.existsFor docId = false) : get_result db docId = [] := by
  simp only [DB.existsFor, List.any_eq_false] at h
  simp only [get_result, List.filter_eq_nil_iff]
  intro a ha
  exact h a ha

theorem countFor_eq_zero_of_not_existsFor {db : DB} {docId : Int}
    (h : db.existsFor docId = false) : db.countFor docId = 0 := by
  have h2 := get_result_eq_nil_of_not_existsFor h
  simp only [get_result] at h2
  simp [DB.countFor, h2]

theorem existsFor_deleteAll (db : DB) (docId : Int) :
    (db.deleteAll docId).existsFor docId = false := by
  simp only [DB.existsFor, DB.deleteAll, List.any_eq_false]
  intro r hr
  have := List.of_mem_filter hr
  simpa [bne] using this

/-! ### Claim C3 -/

/-- Claim C3: when a persisted issue already exists for the document and
`retry = false`, the task short-circuits to the terminal `exists` result with
progress 100, without calling the chunk-fetch collaborator or the inference
adapter and without touching the store. -/
theorem C3_exists_short_circuit (env : Env) (db : DB) (docId : Int)
    (lang : String) (h : db.existsFor docId = true) :
    analyze_document_task env db docId lang false =
      ([Ev.update "PROGRESS" (initResult docId),
        Ev.update "SUCCESS"
          { initResult docId with analysis_result := "exists", progress := 100 }],
       db,
       .ok { initResult docId with analysis_result := "exists", progress := 100 }) ∧
    noCollaboratorCalls (analyze_document_task env db docId lang false).1 = true := by
  have hrun : runAsyncAnalyze env db docId lang false =
      ([Ev.update "PROGRESS" (initResult docId)], db,
       .ok { initResult docId with analysis_result := "exists", progress := 100 }) := by
    simp [runAsyncAnalyze, h]
  constructor
  · simp [analyze_document_task, hrun]
  · simp [analyze_document_task, hrun, noCollaboratorCalls]

/-- Witness for C3: a store holding one issue for document 4. -/
theorem C3_witness :
    (({ rows := [{ id := 1, document_id := 4, issue := "x", severity := "minor" }],
        nextId := 2 } : DB).existsFor 4 = true) ∧
    (analyze_document_task
      { parse := fun _ => none, fetch := .ok [], infer := fun _ _ => .ok "",
        insertError := none }
      { rows := [{ id := 1, document_id := 4, issue := "x", severity := "minor" }],
        nextId := 2 } 4 "en" false).2.2 =
      .ok { initResult 4 with analysis_result := "exists", progress := 100 } := by
  refine ⟨by decide, ?_⟩
  have h := C3_exists_short_circuit
    { parse := fun _ => none, fetch := .ok [], infer := fun _ _ => .ok "",
      insertError := none }
    { rows := [{ id := 1, document_id := 4, issue := "x", severity := "minor" }],
      nextId := 2 } 4 "en" (by decide)
  rw [h.1]

/-! ### Claim C5 -/

/-- Claim C5: the per-chunk extraction step contributes zero issues (and
raises no error — the decode failure is caught) whenever the raw model output
has no brace-delimited substring, or the brace-delimited substring fails to
parse, or it parses to an object whose `status` is not `"issues_found"`. -/
theorem C5_extractor_robustness (parse : String → Option ParsedObj)
    (text : String)
    (h : braceMatch text = none ∨
         ∃ s, braceMatch text = some s ∧
           (parse s = none ∨
            ∃ p, parse s = some p ∧ p.status ≠ some "issues_found")) :
    extractIssues parse text = [] := by
  rcases h with h | ⟨s, hs, h⟩
  · simp [extractIssues, h]
  · rcases h with h | ⟨p, hp, hst⟩
    · simp [extractIssues, hs, h]
    · simp [extractIssues, hs, hp, hst]

/-- Witness for C5: the three degraded shapes on concrete inputs — no braces
at all, a malformed candidate, and a parsed object with a different status. -/
theorem C5_witness :
    (braceMatch "no json here" = none ∧
      extractIssues (fun _ => none) "no json here" = []) ∧
    (braceMatch "x\x7bbad\x7d" = some "\x7bbad\x7d" ∧
      extractIssues (fun _ => none) "x\x7bbad\x7d" = []) ∧
    (extractIssues
        (fun _ => some { status := some "ok", issues := some [] })
        "x\x7bbad\x7d" = []) := by
  refine ⟨⟨by decide, ?_⟩, ⟨by decide, ?_⟩, ?_⟩
  · exact C5_extractor_robustness _ _ (Or.inl (by decide))
  · exact C5_extractor_robustness _ _
      (Or.inr ⟨"\x7bbad\x7d", by decide, Or.inl rfl⟩)
  · exact C5_extractor_robustness _ _
      (Or.inr ⟨"\x7bbad\x7d", by decide, Or.inr ⟨_, rfl, by decide⟩⟩)

/-! ### Claim C8 -/

/-- Claim C8: an empty fetched chunk list terminates the job as
`completed_no_issues` with progress 100; no per-chunk checkpoint (hence no
division by `total_chunks = 0`) and no inference call ever happens. -/
theorem C8_zero_chunks (env : Env) (db : DB) (docId : Int) (lang : String)
    (retry : Bool) (hf : env.fetch = .ok [])
    (hsc : db.existsFor docId = false ∨ retry = true) :
    analyze_document_task env db docId lang retry =
      ([Ev.update "PROGRESS" (initResult docId),
        Ev.update "PROGRESS" { initResult docId with progress := 25 },
        Ev.fetchChunks,
        Ev.update "SUCCESS"
          { initResult docId with
              analysis_result := "completed_no_issues", progress := 100 }],
       if retry then db.deleteAll docId else db,
       .ok { initResult docId with
               analysis_result := "completed_no_issues", progress := 100 }) ∧
    noInferCalls (analyze_document_task env db docId lang retry).1 = true := by
  have hcond : (db.existsFor docId && !retry) = false := by
    rcases hsc with h | h
    · simp [h]
    · simp [h]
  have hrun : runAsyncAnalyze env db docId lang retry =
      ([Ev.update "PROGRESS" (initResult docId),
        Ev.update "PROGRESS" { initResult docId with progress := 25 },
        Ev.fetchChunks],
       if retry then db.deleteAll docId else db,
       .ok { initResult docId with
               analysis_result := "completed_no_issues", progress := 100 }) := by
    simp [runAsyncAnalyze, hcond, hf, chunkLoop]
  constructor
  · simp [analyze_document_task, hrun]
  · simp [analyze_document_task, hrun, noInferCalls]

/-- Witness for C8: an empty store and a fetch returning zero chunks. -/
theorem C8_witness :
    (analyze_document_task
      { parse := fun _ => none, fetch := .ok [], infer := fun _ _ => .ok "",
        insertError := none }
      { rows := [], nextId := 1 } 9 "en" false).2.2 =
      .ok { initResult 9 with
              analysis_result := "completed_no_issues", progress := 100 } := by
  have h := C8_zero_chunks
    { parse := fun _ => none, fetch := .ok [], infer := fun _ _ => .ok "",
      insertError := none }
    { rows := [], nextId := 1 } 9 "en" false rfl (Or.inl (by decide))
  rw [h.1]

end AIAnalyzer

namespace AIAnalyzer

/-! ### Claim C1 — counterexample -/

/-- Claim C1 is false as stated: with one chunk, one found issue and a failing
insert, the emitted progress sequence is `[0, 25, 100, 90]` — it decreases at
the terminal emission — and the terminal
`completed_with_issues_but_insert_failed` outcome carries progress 90, not
100. -/
theorem C1_counterexample :
    emittedProgress (analyze_document_task envInsertFail db0 7 "en" false).1 =
      [0, 25, 100, 90] ∧
    ¬ List.Chain' (· ≤ ·)
        (emittedProgress (analyze_document_task envInsertFail db0 7 "en" false).1) ∧
    (analyze_document_task envInsertFail db0 7 "en" false).2.2 =
      .ok insertFailedResult ∧
    insertFailedResult.analysis_result = "completed_with_issues_but_insert_failed" ∧
    insertFailedResult.progress = 90 ∧ ¬ insertFailedResult.progress = 100 := by
  have h1 : emittedProgress (analyze_document_task envInsertFail db0 7 "en" false).1 =
      [0, 25, 25 + ((1 : Nat) : Rat) / ((1 : Nat) : Rat) * 75, 90] := rfl
  have h2 : (25 + ((1 : Nat) : Rat) / ((1 : Nat) : Rat) * 75 : Rat) = 100 := by norm_num
  rw [h1, h2]
  refine ⟨rfl, ?_, rfl, rfl, rfl, by norm_num [insertFailedResult]⟩
  simp only [List.chain'_cons, List.chain'_singleton, and_true]
  norm_num

/-! ### Claim C4 — the raise-a-dict bug -/

/-- Claim C4 is what the code intends but not what it does: when the fetch
phase raises `HTTPStatusError`, the `raise {dict}` at tasks.py:159 itself
raises `TypeError: exceptions must derive from BaseException`, so the
`FAILURE` meta wraps `TypeError` — not the kind of the original exception — and
the exception is re-raised across the queue boundary (tasks.py:194) instead
of being only captured in the result payload. -/
theorem C4_raise_dict_bug :
    envFetchFail.fetch = .error (.httpStatusError "Server error 500") ∧
    (analyze_document_task envFetchFail db0 5 "en" false).2.2 =
      .error (PyExc.typeError "exceptions must derive from BaseException") ∧
    (analyze_document_task envFetchFail db0 5 "en" false).1.getLast? =
      some (Ev.update "FAILURE"
        { document_id := 5, analysis_result := "failed", progress := 100,
          exc_type := some "TypeError",
          exc_message := some "exceptions must derive from BaseException" }) ∧
    some "TypeError" ≠ some (PyExc.httpStatusError "Server error 500").name := by
  refine ⟨rfl, rfl, rfl, by decide⟩

/-! ### Claim C2 — the vocabulary mismatch in the reconciler -/

/-- Claim C2 fails on the code: the task produces the terminal string
`completed_with_issues_but_insert_failed`, but `get_task_status` matches the
different literal `completed_with_issues_and_failed_to_inserted` (a string no
producer emits) and has no branch for `exists` at all, so both stored
outcomes fall through the SUCCESS branch unmapped (`analysis_result = None`,
`progress = 0`) and the persisted-row count query is never made for them. -/
theorem C2_reconciler_vocabulary_bug :
    (analyze_document_task envInsertFail db0 7 "en" false).2.2 =
      .ok insertFailedResult ∧
    insertFailedResult.analysis_result = "completed_with_issues_but_insert_failed" ∧
    (get_task_status db0 "t1" (QueueState.success insertFailedResult)).1.analysis_result
      = none ∧
    (get_task_status db0 "t1" (QueueState.success insertFailedResult)).1.progress = 0 ∧
    (get_task_status db0 "t1" (QueueState.success insertFailedResult)).2 = false ∧
    (get_task_status db0 "t2"
        (QueueState.success
          { initResult 7 with analysis_result := "exists", progress := 100 })).1.analysis_result
      = none ∧
    (get_task_status db0 "t2"
        (QueueState.success
          { initResult 7 with analysis_result := "exists", progress := 100 })).2
      = false := by
  refine ⟨rfl, rfl, rfl, rfl, rfl, rfl, rfl⟩

/-! ### Claim C6 — counterexample -/

/-- Claim C6 is false as stated: with seven chunks, the checkpoint carrying
`current_chunk = 1` has progress `25 + (1/7)*75 = 250/7`, which is not an
integer (so in particular not the claimed rounded value), and it is emitted
*before* the inference call of chunk 1, not after chunk 1 completes. -/
theorem C6_counterexample :
    (analyze_document_task envSeven db0 3 "en" false).1.get? 3 =
      some (Ev.update "PROGRESS"
        { initResult 3 with
            progress := 25 + ((1 : Nat) : Rat) / ((7 : Nat) : Rat) * 75,
            current_chunk := some 1, total_chunks := some 7 }) ∧
    (analyze_document_task envSeven db0 3 "en" false).1.get? 4 =
      some (Ev.infer 1 "c") ∧
    (¬ ∃ z : ℤ, (25 + ((1 : Nat) : Rat) / ((7 : Nat) : Rat) * 75) = (z : Rat)) ∧
    25 + ((1 : Nat) : Rat) / ((7 : Nat) : Rat) * 75 ≠ 36 ∧
    25 + ((1 : Nat) : Rat) / ((7 : Nat) : Rat) * 75 ≠ 35 := by
  refine ⟨rfl, rfl, ?_, by norm_num, by norm_num⟩
  rintro ⟨z, hz⟩
  have h : (z : Rat) * 7 = 250 := by
    rw [← hz]
    norm_num
  have h3 : z * 7 = 250 := by exact_mod_cast h
  omega

end AIAnalyzer

namespace AIAnalyzer

/-! ### Trace bookkeeping lemmas -/

@[simp] theorem progressUpdates_nil : progressUpdates [] = [] := rfl

@[simp] theorem progressUpdates_append (l1 l2 : List Ev) :
    progressUpdates (l1 ++ l2) = progressUpdates l1 ++ progressUpdates l2 :=
  List.filterMap_append _ _ _

@[simp] theorem progressUpdates_cons_progress (m : TaskResult) (l : List Ev) :
    progressUpdates (Ev.update "PROGRESS" m :: l) = m.progress :: progressUpdates l := by
  simp [progressUpdates]

@[simp] theorem progressUpdates_cons_success (m : TaskResult) (l : List Ev) :
    progressUpdates (Ev.update "SUCCESS" m :: l) = progressUpdates l := by
  simp [progressUpdates]

@[simp] theorem progressUpdates_cons_failure (m : TaskResult) (l : List Ev) :
    progressUpdates (Ev.update "FAILURE" m :: l) = progressUpdates l := by
  simp [progressUpdates]

@[simp] theorem progressUpdates_cons_fetch (l : List Ev) :
    progressUpdates (Ev.fetchChunks :: l) = progressUpdates l := rfl

@[simp] theorem progressUpdates_cons_infer (i : Nat) (c : String) (l : List Ev) :
    progressUpdates (Ev.infer i c :: l) = progressUpdates l := rfl

/-! ### Loop invariants -/

theorem chunkLoop_ok_meta (env : Env) (lang : String) (n : Nat) :
    ∀ (cs : List String) (r : TaskResult) (issues : List IssueObj) (i : Nat)
      (r2 : TaskResult) (iss2 : List IssueObj),
      (chunkLoop env lang n r issues i cs).2 = .ok (r2, iss2) →
      r2.analysis_result = r.analysis_result ∧ r2.issues_found = r.issues_found ∧
        r2.error = r.error ∧ r2.document_id = r.document_id := by
  intro cs
  induction cs with
  | nil =>
    intro r issues i r2 iss2 h
    simp only [chunkLoop, Except.ok.injEq, Prod.mk.injEq] at h
    rw [← h.1]
    exact ⟨rfl, rfl, rfl, rfl⟩
  | cons c rest ih =>
    intro r issues i r2 iss2 h
    simp only [chunkLoop] at h
    cases hinf : env.infer c lang with
    | error e => rw [hinf] at h; simp at h
    | ok text =>
      rw [hinf] at h
      have h2 := ih _ _ (i + 1) r2 iss2 h
      simpa using h2

theorem chunkLoop_chain (env : Env) (lang : String) (n : Nat) (hn : 0 < n) :
    ∀ (cs : List String) (r : TaskResult) (issues : List IssueObj) (i : Nat)
      (prev : Rat), prev ≤ 25 + (i : Rat) / (n : Rat) * 75 →
      List.Chain' (· ≤ ·)
        (prev :: progressUpdates (chunkLoop env lang n r issues i cs).1) := by
  have hn0 : (0 : Rat) < (n : Rat) := by exact_mod_cast hn
  intro cs
  induction cs with
  | nil =>
    intro r issues i prev hprev
    simp [chunkLoop]
  | cons c rest ih =>
    intro r issues i prev hprev
    have hstep : (25 + (i : Rat) / (n : Rat) * 75 : Rat) ≤
        25 + ((i + 1 : Nat) : Rat) / (n : Rat) * 75 := by
      have hle : ((i : Nat) : Rat) ≤ ((i + 1 : Nat) : Rat) := by
        push_cast
        linarith
      have hdiv : ((i : Nat) : Rat) / (n : Rat) ≤ ((i + 1 : Nat) : Rat) / (n : Rat) :=
        (div_le_div_iff_of_pos_right hn0).mpr hle
      nlinarith
    simp only [chunkLoop]
    cases hinf : env.infer c lang with
    | error e =>
      simp only [progressUpdates_cons_progress, progressUpdates_cons_infer,
        progressUpdates_nil, List.chain'_cons, List.chain'_singleton, and_true]
      exact hprev
    | ok text =>
      simp only [List.cons_append, List.nil_append, progressUpdates_cons_progress,
        progressUpdates_cons_infer, progressUpdates_append, List.chain'_cons]
      refine ⟨hprev, ?_⟩
      exact ih _ _ (i + 1) _ hstep

/-! ### Persist-phase case lemmas -/

theorem persistPhase_eq_of_buildError (env : Env) (db : DB) (docId : Int)
    (r : TaskResult) (issues : List IssueObj) (e : PyExc)
    (hb : buildInsertValues docId issues = .error e) :
    persistPhase env db docId r issues =
      (db, { r with analysis_result := "completed_with_issues_but_insert_failed",
                    error := some e.msg }) := by
  unfold persistPhase
  rw [hb]

theorem persistPhase_eq_of_insertError (env : Env) (db : DB) (docId : Int)
    (r : TaskResult) (issues : List IssueObj)
    (vals : List (Int × String × String)) (e : PyExc)
    (hb : buildInsertValues docId issues = .ok vals)
    (hie : env.insertError = some e) :
    persistPhase env db docId r issues =
      (db, { r with analysis_result := "completed_with_issues_but_insert_failed",
                    error := some e.msg }) := by
  unfold persistPhase
  rw [hb, hie]

theorem persistPhase_eq_of_commit (env : Env) (db : DB) (docId : Int)
    (r : TaskResult) (issues : List IssueObj)
    (vals : List (Int × String × String))
    (hb : buildInsertValues docId issues = .ok vals)
    (hie : env.insertError = none) :
    persistPhase env db docId r issues =
      (if issues.length ≤ (db.insertBatch vals).countFor docId then
        (db.insertBatch vals,
          { r with progress := 100, analysis_result := "completed_with_issues",
                   inserted_issues := some ((db.insertBatch vals).countFor docId) })
      else
        (db.insertBatch vals,
          { r with analysis_result := "completed_with_issues_but_insert_failed",
                   expected_issues := some issues.length,
                   inserted_issues := some ((db.insertBatch vals).countFor docId) })) := by
  unfold persistPhase
  rw [hb, hie]

theorem persistPhase_completed (env : Env) (db : DB) (docId : Int) (r : TaskResult)
    (issues : List IssueObj)
    (h : (persistPhase env db docId r issues).2.analysis_result =
      "completed_with_issues") :
    ∃ vals, buildInsertValues docId issues = .ok vals ∧ env.insertError = none ∧
      (persistPhase env db docId r issues).1 = db.insertBatch vals ∧
      (persistPhase env db docId r issues).2.issues_found = r.issues_found ∧
      (persistPhase env db docId r issues).2.progress = 100 := by
  cases hb : buildInsertValues docId issues with
  | error e =>
    rw [persistPhase_eq_of_buildError env db docId r issues e hb] at h
    simp at h
  | ok vals =>
    cases hie : env.insertError with
    | some e =>
      rw [persistPhase_eq_of_insertError env db docId r issues vals e hb hie] at h
      simp at h
    | none =>
      rw [persistPhase_eq_of_commit env db docId r issues vals hb hie] at h ⊢
      by_cases hc : issues.length ≤ (db.insertBatch vals).countFor docId
      · rw [if_pos hc]
        exact ⟨vals, rfl, rfl, rfl, rfl, rfl⟩
      · rw [if_neg hc] at h
        simp at h

theorem persistPhase_terminal (env : Env) (db : DB) (docId : Int) (r : TaskResult)
    (issues : List IssueObj) :
    ((persistPhase env db docId r issues).2.analysis_result =
        "completed_with_issues" ∧
      (persistPhase env db docId r issues).2.progress = 100) ∨
    ((persistPhase env db docId r issues).2.analysis_result =
        "completed_with_issues_but_insert_failed" ∧
      (persistPhase env db docId r issues).2.progress = r.progress) := by
  cases hb : buildInsertValues docId issues with
  | error e =>
    rw [persistPhase_eq_of_buildError env db docId r issues e hb]
    right
    exact ⟨rfl, rfl⟩
  | ok vals =>
    cases hie : env.insertError with
    | some e =>
      rw [persistPhase_eq_of_insertError env db docId r issues vals e hb hie]
      right
      exact ⟨rfl, rfl⟩
    | none =>
      rw [persistPhase_eq_of_commit env db docId r issues vals hb hie]
      by_cases hc : issues.length ≤ (db.insertBatch vals).countFor docId
      · rw [if_pos hc]
        left
        exact ⟨rfl, rfl⟩
      · rw [if_neg hc]
        right
        exact ⟨rfl, rfl⟩

theorem persistPhase_issues_found (env : Env) (db : DB) (docId : Int)
    (r : TaskResult) (issues : List IssueObj) :
    (persistPhase env db docId r issues).2.issues_found = r.issues_found := by
  cases hb : buildInsertValues docId issues with
  | error e =>
    rw [persistPhase_eq_of_buildError env db docId r issues e hb]
  | ok vals =>
    cases hie : env.insertError with
    | some e =>
      rw [persistPhase_eq_of_insertError env db docId r issues vals e hb hie]
    | none =>
      rw [persistPhase_eq_of_commit env db docId r issues vals hb hie]
      by_cases hc : issues.length ≤ (db.insertBatch vals).countFor docId
      · rw [if_pos hc]
      · rw [if_neg hc]

/-! ### Batch-insert value lemmas -/

theorem buildInsertValues_fst (docId : Int) :
    ∀ (issues : List IssueObj) (vals : List (Int × String × String)),
      buildInsertValues docId issues = .ok vals → ∀ v ∈ vals, v.1 = docId := by
  intro issues
  induction issues with
  | nil =>
    intro vals h v hv
    simp only [buildInsertValues, Except.ok.injEq] at h
    subst h
    simp at hv
  | cons is rest ih =>
    intro vals h v hv
    simp only [buildInsertValues] at h
    cases ht : is.text with
    | none => rw [ht] at h; simp at h
    | some t =>
      rw [ht] at h
      cases hs : is.severity with
      | none => rw [hs] at h; simp at h
      | some sv =>
        rw [hs] at h
        cases hrest : buildInsertValues docId rest with
        | error e => rw [hrest] at h; simp at h
        | ok vs =>
          rw [hrest] at h
          simp only [Except.ok.injEq] at h
          subst h
          rcases List.mem_cons.mp hv with h1 | h1
          · rw [h1]
          · exact ih vs hrest v h1

theorem buildInsertValues_error_of_bad (docId : Int) :
    ∀ (issues : List IssueObj),
      (∃ is ∈ issues, is.text = none ∨ is.severity = none) →
      ∃ e, buildInsertValues docId issues = .error e := by
  intro issues
  induction issues with
  | nil =>
    rintro ⟨is, his, -⟩
    simp at his
  | cons i0 rest ih =>
    rintro ⟨is, his, hbad⟩
    simp only [buildInsertValues]
    cases ht : i0.text with
    | none => exact ⟨.keyError "text", rfl⟩
    | some t =>
      cases hs : i0.severity with
      | none => exact ⟨.keyError "severity", rfl⟩
      | some sv =>
        have hrest : ∃ is ∈ rest, is.text = none ∨ is.severity = none := by
          rcases List.mem_cons.mp his with h1 | h1
          · subst h1
            rcases hbad with hbad | hbad
            · rw [ht] at hbad
              simp at hbad
            · rw [hs] at hbad
              simp at hbad
          · exact ⟨is, h1, hbad⟩
        obtain ⟨e, he⟩ := ih hrest
        rw [he]
        exact ⟨e, rfl⟩

/-! ### Claim C9 -/

/-- Claim C9 states what the spec and the repository tests
(`tests/test_ai.py` asserts 202 and a `task_id` in the body for every valid
submission) intend, but the code cannot deliver it: the effective response
schema (`schemas/analyzer.py` line 45) types `task_id` as `int` while the
queue assigns UUID string ids, so a valid request first dispatches the task
and then fails response-model validation — the endpoint answers 500 with no
body, never the claimed 202. The 422 half (invalid language or negative id,
no task dispatched) does hold. -/
theorem C9_schema_task_id_bug :
    pydanticCoerceInt "0b5f8e1c-7f70-4f9b-9a2e-3d1c2b4a5e6f" = none ∧
    analyze_doc (fun _ _ _ => "0b5f8e1c-7f70-4f9b-9a2e-3d1c2b4a5e6f")
      3 "en" false = (500, none, true) ∧
    analyze_doc (fun _ _ _ => "0b5f8e1c-7f70-4f9b-9a2e-3d1c2b4a5e6f")
      (-1) "en" false = (422, none, false) ∧
    analyze_doc (fun _ _ _ => "0b5f8e1c-7f70-4f9b-9a2e-3d1c2b4a5e6f")
      3 "fr" false = (422, none, false) := by
  refine ⟨by decide, by decide, by decide, by decide⟩

end AIAnalyzer

namespace AIAnalyzer

/-! ### Wrapper decomposition -/

theorem analyze_shape (env : Env) (db : DB) (docId : Int) (lang : String)
    (retry : Bool) :
    ∃ fin : Ev,
      (analyze_document_task env db docId lang retry).1 =
        (runAsyncAnalyze env db docId lang retry).1 ++ [fin] ∧
      (analyze_document_task env db docId lang retry).2.1 =
        (runAsyncAnalyze env db docId lang retry).2.1 ∧
      (analyze_document_task env db docId lang retry).2.2 =
        (runAsyncAnalyze env db docId lang retry).2.2 ∧
      progressUpdates [fin] = [] := by
  rcases h : runAsyncAnalyze env db docId lang retry with ⟨evs, db1, res⟩
  cases res with
  | ok result =>
    by_cases hres : (result.analysis_result == "failed") = true
    · exact ⟨Ev.update "FAILURE" result,
        by simp [analyze_document_task, h, hres],
        by simp [analyze_document_task, h, hres],
        by simp [analyze_document_task, h, hres], rfl⟩
    · exact ⟨Ev.update "SUCCESS" result,
        by simp [analyze_document_task, h, hres],
        by simp [analyze_document_task, h, hres],
        by simp [analyze_document_task, h, hres], rfl⟩
  | error e =>
    exact ⟨Ev.update "FAILURE"
        { document_id := docId, analysis_result := "failed", progress := 100,
          exc_type := some e.name, exc_message := some e.msg },
      by simp [analyze_document_task, h],
      by simp [analyze_document_task, h],
      by simp [analyze_document_task, h], rfl⟩

theorem analyze_error_last (env : Env) (db : DB) (docId : Int) (lang : String)
    (retry : Bool) (e : PyExc)
    (he : (analyze_document_task env db docId lang retry).2.2 = .error e) :
    (analyze_document_task env db docId lang retry).1.getLast? =
      some (Ev.update "FAILURE"
        { document_id := docId, analysis_result := "failed", progress := 100,
          exc_type := some e.name, exc_message := some e.msg }) := by
  unfold analyze_document_task at he ⊢
  rcases h : runAsyncAnalyze env db docId lang retry with ⟨evs, db1, res⟩
  rw [h] at he
  cases res with
  | ok result =>
    by_cases hres : (result.analysis_result == "failed") = true
    · simp [hres] at he
    · simp [hres] at he
  | error e' =>
    have he2 : e' = e := by simpa using he
    subst he2
    simp [List.getLast?_concat]

/-! ### Run-level progress lemmas -/

theorem runAsync_evs_short (env : Env) (db : DB) (docId : Int) (lang : String)
    (retry : Bool) (hsc : (db.existsFor docId && !retry) = true) :
    (runAsyncAnalyze env db docId lang retry).1 =
      [Ev.update "PROGRESS" (initResult docId)] := by
  unfold runAsyncAnalyze
  simp [hsc]

theorem runAsync_evs_fetch_error (env : Env) (db : DB) (docId : Int)
    (lang : String) (retry : Bool) (e : PyExc)
    (hsc : (db.existsFor docId && !retry) = false) (hf : env.fetch = .error e) :
    (runAsyncAnalyze env db docId lang retry).1 =
      [Ev.update "PROGRESS" (initResult docId),
       Ev.update "PROGRESS" { initResult docId with progress := 25 },
       Ev.fetchChunks] := by
  unfold runAsyncAnalyze
  simp [hsc, hf]

theorem runAsync_evs_fetch_ok (env : Env) (db : DB) (docId : Int) (lang : String)
    (retry : Bool) (chunks : List String)
    (hsc : (db.existsFor docId && !retry) = false) (hf : env.fetch = .ok chunks) :
    (runAsyncAnalyze env db docId lang retry).1 =
      Ev.update "PROGRESS" (initResult docId) ::
      Ev.update "PROGRESS" { initResult docId with progress := 25 } ::
      Ev.fetchChunks ::
      (chunkLoop env lang chunks.length { initResult docId with progress := 25 }
        [] 1 chunks).1 := by
  unfold runAsyncAnalyze
  simp only [hsc, Bool.false_eq_true, if_false, hf]
  cases hloop : (chunkLoop env lang chunks.length
      { initResult docId with progress := 25 } [] 1 chunks).2 with
  | error e => simp [hloop]
  | ok p =>
    obtain ⟨r2, issues⟩ := p
    by_cases hie : issues.isEmpty = true
    · simp [hloop, hie]
    · simp [hloop, hie]

theorem runAsync_chain (env : Env) (db : DB) (docId : Int) (lang : String)
    (retry : Bool) :
    List.Chain' (· ≤ ·)
      (progressUpdates (runAsyncAnalyze env db docId lang retry).1) := by
  by_cases hsc : (db.existsFor docId && !retry) = true
  · rw [runAsync_evs_short env db docId lang retry hsc]
    simp
  · rw [Bool.not_eq_true] at hsc
    cases hf : env.fetch with
    | error e =>
      rw [runAsync_evs_fetch_error env db docId lang retry e hsc hf]
      simp [initResult]
    | ok chunks =>
      rw [runAsync_evs_fetch_ok env db docId lang retry chunks hsc hf]
      cases chunks with
      | nil => simp [chunkLoop, initResult]
      | cons c0 cs0 =>
        have hch := chunkLoop_chain env lang (c0 :: cs0).length (by simp)
          (c0 :: cs0) { initResult docId with progress := 25 } [] 1 25
          (by
            have h75 : (0 : Rat) ≤
                ((1 : Nat) : Rat) / (((c0 :: cs0).length : Nat) : Rat) * 75 := by
              positivity
            linarith)
        simp only [progressUpdates_cons_progress, progressUpdates_cons_fetch]
        rw [List.chain'_cons]
        refine ⟨by simp [initResult], hch⟩

end AIAnalyzer

namespace AIAnalyzer

theorem runAsync_ok_terminal (env : Env) (db : DB) (docId : Int) (lang : String)
    (retry : Bool) (r : TaskResult)
    (h : (runAsyncAnalyze env db docId lang retry).2.2 = .ok r) :
    (r.analysis_result = "completed_with_issues_but_insert_failed" ∧
      r.progress = 90) ∨
    ((r.analysis_result = "exists" ∨ r.analysis_result = "completed_no_issues" ∨
      r.analysis_result = "completed_with_issues") ∧ r.progress = 100) := by
  unfold runAsyncAnalyze at h
  by_cases hsc : (db.existsFor docId && !retry) = true
  · simp only [hsc, if_true] at h
    simp only [Except.ok.injEq] at h
    right
    rw [← h]
    exact ⟨Or.inl rfl, rfl⟩
  · simp only [hsc, Bool.false_eq_true, if_false] at h
    cases hf : env.fetch with
    | error e => rw [hf] at h; simp at h
    | ok chunks =>
      rw [hf] at h
      simp only [] at h
      cases hloop : (chunkLoop env lang chunks.length
          { initResult docId with progress := 25 } [] 1 chunks).2 with
      | error e => rw [hloop] at h; simp at h
      | ok p =>
        rw [hloop] at h
        obtain ⟨r2, issues⟩ := p
        by_cases hie : issues.isEmpty = true
        · simp only [hie, if_true, Except.ok.injEq] at h
          right
          rw [← h]
          exact ⟨Or.inr (Or.inl rfl), rfl⟩
        · simp only [hie, Bool.false_eq_true, if_false, Except.ok.injEq] at h
          rcases persistPhase_terminal env
              (if retry = true then db.deleteAll docId else db) docId
              { r2 with
                  analysis_result := "completed_with_issues_but_not_inserted",
                  issues_found := some issues, progress := 90 } issues
            with ⟨ha, hp⟩ | ⟨ha, hp⟩
          · right
            rw [← h]
            exact ⟨Or.inr (Or.inr ha), hp⟩
          · left
            rw [← h]
            exact ⟨ha, hp⟩

/-! ### Claim C1 (amended) -/

/-- Claim C1 (amended): the `PROGRESS`-state emissions of any job instance are
non-decreasing, and terminal outcomes carry progress 100 — except
`completed_with_issues_but_insert_failed`, which carries progress 90 (the
final emission therefore drops from the last 100 checkpoint); an escaped
exception ends with a `FAILURE` emission at progress 100. -/
theorem C1_amended_monotone (env : Env) (db : DB) (docId : Int) (lang : String)
    (retry : Bool) :
    List.Chain' (· ≤ ·)
      (progressUpdates (analyze_document_task env db docId lang retry).1) ∧
    (∀ r, (analyze_document_task env db docId lang retry).2.2 = .ok r →
      (r.analysis_result = "completed_with_issues_but_insert_failed" ∧
        r.progress = 90) ∨
      ((r.analysis_result = "exists" ∨ r.analysis_result = "completed_no_issues" ∨
        r.analysis_result = "completed_with_issues") ∧ r.progress = 100)) ∧
    (∀ e, (analyze_document_task env db docId lang retry).2.2 = .error e →
      (analyze_document_task env db docId lang retry).1.getLast? =
        some (Ev.update "FAILURE"
          { document_id := docId, analysis_result := "failed", progress := 100,
            exc_type := some e.name, exc_message := some e.msg })) := by
  obtain ⟨fin, hevs, hdb, hres, hfin⟩ := analyze_shape env db docId lang retry
  refine ⟨?_, ?_, ?_⟩
  · rw [hevs, progressUpdates_append, hfin, List.append_nil]
    exact runAsync_chain env db docId lang retry
  · intro r hr
    rw [hres] at hr
    exact runAsync_ok_terminal env db docId lang retry r hr
  · intro e he
    exact analyze_error_last env db docId lang retry e he

/-- Witness for C1 (amended): the insert-failure run of the counterexample
instantiates the amended classification (progress 90 on the insert-failed
outcome), and a seven-chunk clean run instantiates the monotone chain. -/
theorem C1_amended_witness :
    List.Chain' (· ≤ ·)
      (progressUpdates (analyze_document_task envSeven db0 3 "en" false).1) ∧
    ((insertFailedResult.analysis_result =
        "completed_with_issues_but_insert_failed" ∧
      insertFailedResult.progress = 90) ∨
     ((insertFailedResult.analysis_result = "exists" ∨
       insertFailedResult.analysis_result = "completed_no_issues" ∨
       insertFailedResult.analysis_result = "completed_with_issues") ∧
      insertFailedResult.progress = 100)) := by
  constructor
  · exact (C1_amended_monotone envSeven db0 3 "en" false).1
  · exact (C1_amended_monotone envInsertFail db0 7 "en" false).2.1
      insertFailedResult rfl

end AIAnalyzer

namespace AIAnalyzer

theorem chunkLoop_cons_of_ok (env : Env) (lang : String) (n : Nat)
    (r : TaskResult) (issues : List IssueObj) (i : Nat) (c0 : String)
    (rest : List String) (t : String) (ht : env.infer c0 lang = .ok t) :
    chunkLoop env lang n r issues i (c0 :: rest) =
      (Ev.update "PROGRESS"
          { r with progress := 25 + (i : Rat) / (n : Rat) * 75,
                   current_chunk := some i, total_chunks := some n } ::
        Ev.infer i c0 ::
        (chunkLoop env lang n
          { r with progress := 25 + (i : Rat) / (n : Rat) * 75,
                   current_chunk := some i, total_chunks := some n }
          (issues ++ extractIssues env.parse t) (i + 1) rest).1,
       (chunkLoop env lang n
          { r with progress := 25 + (i : Rat) / (n : Rat) * 75,
                   current_chunk := some i, total_chunks := some n }
          (issues ++ extractIssues env.parse t) (i + 1) rest).2) := by
  simp only [chunkLoop, ht]
  simp

theorem chunkLoop_get (env : Env) (lang : String) (n : Nat) :
    ∀ (cs : List String) (r : TaskResult) (issues : List IssueObj) (i0 : Nat),
      (∀ c ∈ cs, ∃ t, env.infer c lang = .ok t) →
      ∀ (j : Nat) (c : String), cs.get? j = some c →
        ∃ m : TaskResult,
          (chunkLoop env lang n r issues i0 cs).1.get? (2 * j) =
            some (Ev.update "PROGRESS" m) ∧
          (chunkLoop env lang n r issues i0 cs).1.get? (2 * j + 1) =
            some (Ev.infer (i0 + j) c) ∧
          m.progress = 25 + ((i0 + j : Nat) : Rat) / (n : Rat) * 75 ∧
          m.current_chunk = some (i0 + j) ∧ m.total_chunks = some n := by
  intro cs
  induction cs with
  | nil =>
    intro r issues i0 hok j c hj
    simp at hj
  | cons c0 rest ih =>
    intro r issues i0 hok j c hj
    obtain ⟨t, ht⟩ := hok c0 (List.mem_cons_self c0 rest)
    rw [chunkLoop_cons_of_ok env lang n r issues i0 c0 rest t ht]
    cases j with
    | zero =>
      obtain rfl : c0 = c := by simpa using hj
      exact ⟨_, rfl, rfl, rfl, rfl, rfl⟩
    | succ j' =>
      have hj' : rest.get? j' = some c := by simpa using hj
      obtain ⟨m, h1, h2, h3, h4, h5⟩ := ih _
        (issues ++ extractIssues env.parse t) (i0 + 1)
        (fun c hc => hok c (List.mem_cons_of_mem _ hc)) j' c hj'
      have hnat : i0 + 1 + j' = i0 + (j' + 1) := by ring
      refine ⟨m, ?_, ?_, ?_, ?_, h5⟩
      · have hidx : 2 * (j' + 1) = 2 * j' + 1 + 1 := by ring
        rw [hidx, List.get?_cons_succ, List.get?_cons_succ]
        exact h1
      · have hidx : 2 * (j' + 1) + 1 = (2 * j' + 1) + 1 + 1 := by ring
        rw [hidx, List.get?_cons_succ, List.get?_cons_succ]
        rw [← hnat]
        exact h2
      · rw [hnat] at h3
        exact h3
      · rw [hnat] at h4
        exact h4

/-! ### Claim C6 (amended) -/

/-- Claim C6 (amended): the job processes chunks in index order; for the chunk
with 1-based index `j + 1` it emits — immediately *before* the corresponding
inference call — a checkpoint whose progress is the exact, unrounded value
`25 + ((j+1) / total_chunks) * 75` (a rational, an integer only when
`total_chunks` divides `75·(j+1)`), which is strictly above 25 and at most
100. -/
theorem C6_amended_checkpoints (env : Env) (db : DB) (docId : Int)
    (lang : String) (retry : Bool) (chunks : List String)
    (hf : env.fetch = .ok chunks)
    (hsc : db.existsFor docId = false ∨ retry = true)
    (hok : ∀ c ∈ chunks, ∃ t, env.infer c lang = .ok t) :
    ∀ (j : Nat) (c : String), chunks.get? j = some c →
      ∃ m : TaskResult,
        (analyze_document_task env db docId lang retry).1.get? (3 + 2 * j) =
          some (Ev.update "PROGRESS" m) ∧
        (analyze_document_task env db docId lang retry).1.get? (4 + 2 * j) =
          some (Ev.infer (j + 1) c) ∧
        m.progress = 25 + ((j + 1 : Nat) : Rat) / ((chunks.length : Nat) : Rat) * 75 ∧
        m.current_chunk = some (j + 1) ∧ m.total_chunks = some chunks.length ∧
        25 < m.progress ∧ m.progress ≤ 100 := by
  intro j c hj
  have hsc' : (db.existsFor docId && !retry) = false := by
    rcases hsc with h | h
    · simp [h]
    · simp [h]
  obtain ⟨fin, hevs, -, -, -⟩ := analyze_shape env db docId lang retry
  rw [runAsync_evs_fetch_ok env db docId lang retry chunks hsc' hf] at hevs
  obtain ⟨m, h1, h2, h3, h4, h5⟩ := chunkLoop_get env lang chunks.length chunks
    { initResult docId with progress := 25 } [] 1 hok j c hj
  obtain ⟨hlt1, -⟩ := List.get?_eq_some.mp h1
  obtain ⟨hlt2, -⟩ := List.get?_eq_some.mp h2
  obtain ⟨hjlt, -⟩ := List.get?_eq_some.mp hj
  have hnat : 1 + j = j + 1 := by ring
  rw [hnat] at h2 h3 h4
  have hn0 : (0 : Rat) < ((chunks.length : Nat) : Rat) := by
    have : 0 < chunks.length := Nat.lt_of_le_of_lt (Nat.zero_le j) hjlt
    exact_mod_cast this
  have hx1 : ((j + 1 : Nat) : Rat) / ((chunks.length : Nat) : Rat) ≤ 1 := by
    rw [div_le_one hn0]
    exact_mod_cast hjlt
  have hx0 : (0 : Rat) < ((j + 1 : Nat) : Rat) / ((chunks.length : Nat) : Rat) := by
    apply div_pos _ hn0
    exact_mod_cast Nat.succ_pos j
  refine ⟨m, ?_, ?_, h3, h4, h5, ?_, ?_⟩
  · rw [hevs]
    have hidx : 3 + 2 * j = 2 * j + 1 + 1 + 1 := by ring
    rw [hidx]
    simp only [List.cons_append, List.get?_cons_succ]
    rw [List.get?_append hlt1]
    exact h1
  · rw [hevs]
    have hidx : 4 + 2 * j = (2 * j + 1) + 1 + 1 + 1 := by ring
    rw [hidx]
    simp only [List.cons_append, List.get?_cons_succ]
    rw [List.get?_append hlt2]
    exact h2
  · rw [h3]
    nlinarith
  · rw [h3]
    nlinarith

/-- Witness for C6 (amended): seven chunks; the checkpoint of chunk 1, `250/7`, is
emitted right before its inference call. -/
theorem C6_amended_witness :
    ∃ m : TaskResult,
      (analyze_document_task envSeven db0 3 "en" false).1.get? 3 =
        some (Ev.update "PROGRESS" m) ∧
      (analyze_document_task envSeven db0 3 "en" false).1.get? 4 =
        some (Ev.infer 1 "c") ∧
      m.progress = 25 + ((1 : Nat) : Rat) / ((7 : Nat) : Rat) * 75 ∧
      m.current_chunk = some 1 ∧ m.total_chunks = some 7 ∧
      25 < m.progress ∧ m.progress ≤ 100 :=
  C6_amended_checkpoints envSeven db0 3 "en" false (List.replicate 7 "c") rfl
    (Or.inl rfl) (fun _ _ => ⟨"plain", rfl⟩) 0 "c" rfl

end AIAnalyzer

namespace AIAnalyzer

/-! ### Round-trip lemmas -/

theorem newRows_roundtrip (docId : Int) :
    ∀ (vals : List (Int × String × String)), (∀ v ∈ vals, v.1 = docId) →
    ∀ (k : Nat),
      (((List.enumFrom k vals).map fun kv =>
          ({ id := kv.1, document_id := kv.2.1, issue := kv.2.2.1,
             severity := kv.2.2.2 } : IssueRow)).filter
        (fun row => row.document_id == docId)).map
        (fun row => (row.document_id, row.issue, row.severity)) = vals := by
  intro vals
  induction vals with
  | nil => intro _ k; simp
  | cons v rest ih =>
    intro hall k
    obtain ⟨v1, v2, v3⟩ := v
    have hv1 : v1 = docId := hall (v1, v2, v3) (List.mem_cons_self _ _)
    have henum : List.enumFrom k ((v1, v2, v3) :: rest) =
        (k, (v1, v2, v3)) :: List.enumFrom (k + 1) rest := rfl
    rw [henum, List.map_cons, List.filter_cons]
    simp only [hv1, beq_self_eq_true, if_true, List.map_cons]
    rw [ih (fun v hv => hall v (List.mem_cons_of_mem _ hv)) (k + 1)]

theorem get_result_insertBatch (docId : Int)
    (vals : List (Int × String × String)) (hall : ∀ v ∈ vals, v.1 = docId)
    (db : DB) :
    (get_result (db.insertBatch vals) docId).map
      (fun row => (row.document_id, row.issue, row.severity)) =
    (get_result db docId).map
      (fun row => (row.document_id, row.issue, row.severity)) ++ vals := by
  unfold get_result DB.insertBatch
  rw [List.filter_append, List.map_append]
  congr 1
  exact newRows_roundtrip docId vals hall db.nextId

/-! ### Run inversion -/

theorem runAsync_cases (env : Env) (db : DB) (docId : Int) (lang : String)
    (retry : Bool) :
    (∃ r, (runAsyncAnalyze env db docId lang retry).2.2 = .ok r ∧
       (r.analysis_result = "exists" ∨
        r.analysis_result = "completed_no_issues") ∧
       r.issues_found = none) ∨
    (∃ e, (runAsyncAnalyze env db docId lang retry).2.2 = .error e) ∨
    (∃ issues r3, issues ≠ [] ∧
       r3.issues_found = some issues ∧ r3.progress = 90 ∧
       (runAsyncAnalyze env db docId lang retry).2.2 =
         .ok (persistPhase env (if retry = true then db.deleteAll docId else db)
           docId r3 issues).2 ∧
       (runAsyncAnalyze env db docId lang retry).2.1 =
         (persistPhase env (if retry = true then db.deleteAll docId else db)
           docId r3 issues).1 ∧
       (if retry = true then db.deleteAll docId else db).existsFor docId = false) := by
  by_cases hsc : (db.existsFor docId && !retry) = true
  · refine Or.inl ⟨{ initResult docId with
        analysis_result := "exists", progress := 100 }, ?_, Or.inl rfl, rfl⟩
    unfold runAsyncAnalyze
    simp [hsc]
  · have hex : (if retry = true then db.deleteAll docId else db).existsFor docId =
        false := by
      cases hr : retry with
      | true => simp [existsFor_deleteAll]
      | false =>
        rw [hr] at hsc
        simp only [Bool.not_false, Bool.and_true] at hsc
        simp only [Bool.false_eq_true, if_false]
        exact Bool.not_eq_true _ ▸ (Bool.eq_false_iff.mpr hsc)
    cases hf : env.fetch with
    | error e =>
      refine Or.inr (Or.inl ⟨raisedDict e docId, ?_⟩)
      unfold runAsyncAnalyze
      simp [hsc, hf]
    | ok chunks =>
      cases hloop : (chunkLoop env lang chunks.length
          { initResult docId with progress := 25 } [] 1 chunks).2 with
      | error e =>
        refine Or.inr (Or.inl ⟨raisedDict e docId, ?_⟩)
        unfold runAsyncAnalyze
        simp [hsc, hf, hloop]
      | ok p =>
        obtain ⟨r2, issues⟩ := p
        by_cases hie : issues.isEmpty = true
        · refine Or.inl ⟨{ r2 with
              analysis_result := "completed_no_issues", progress := 100 },
            ?_, Or.inr rfl, ?_⟩
          · unfold runAsyncAnalyze
            simp [hsc, hf, hloop, hie]
          · have hmeta := chunkLoop_ok_meta env lang chunks.length chunks
              { initResult docId with progress := 25 } [] 1 r2 issues hloop
            simpa using hmeta.2.1
        · refine Or.inr (Or.inr ⟨issues,
            { r2 with
                analysis_result := "completed_with_issues_but_not_inserted",
                issues_found := some issues, progress := 90 },
            ?_, rfl, rfl, ?_, ?_, hex⟩)
          · intro hnil
            rw [hnil] at hie
            simp at hie
          · unfold runAsyncAnalyze
            simp [hsc, hf, hloop, hie]
          · unfold runAsyncAnalyze
            simp [hsc, hf, hloop, hie]

/-! ### Claim C7 -/

/-- Claim C7: when a job terminates `completed_with_issues`, the rows
`GET /analyze/result` returns for that document are exactly the batch the job
inserted — same order, same issue text and severity — and a document with no
persisted issues yields the empty list. -/
theorem C7_roundtrip :
    (∀ (env : Env) (db : DB) (docId : Int) (lang : String) (retry : Bool)
        (r : TaskResult),
      (analyze_document_task env db docId lang retry).2.2 = .ok r →
      r.analysis_result = "completed_with_issues" →
      ∃ issues vals, r.issues_found = some issues ∧
        buildInsertValues docId issues = .ok vals ∧
        (get_result (analyze_document_task env db docId lang retry).2.1
            docId).map
          (fun row => (row.document_id, row.issue, row.severity)) = vals) ∧
    (∀ (db : DB) (docId : Int), db.existsFor docId = false →
      get_result db docId = []) := by
  constructor
  · intro env db docId lang retry r h hres
    obtain ⟨fin, hevs, hdb, hresE, hfin⟩ := analyze_shape env db docId lang retry
    rw [hresE] at h
    rcases runAsync_cases env db docId lang retry with
      ⟨r', h2, hres', hif'⟩ | ⟨e, h2⟩ |
      ⟨issues, r3, hne, hif3, hp3, h22, h21, hex⟩
    · obtain rfl : r' = r := by
        have := h2.symm.trans h
        simpa using this
      rcases hres' with h3 | h3
      · exact absurd (h3.symm.trans hres) (by decide)
      · exact absurd (h3.symm.trans hres) (by decide)
    · rw [h2] at h
      simp at h
    · rw [h22] at h
      have hr : (persistPhase env
          (if retry = true then db.deleteAll docId else db) docId r3 issues).2 =
          r := by
        simpa using h
      rw [← hr] at hres
      obtain ⟨vals, hb, hie, hdb2, hifp, hprog⟩ :=
        persistPhase_completed env _ docId r3 issues hres
      refine ⟨issues, vals, ?_, hb, ?_⟩
      · rw [← hr, hifp, hif3]
      · rw [hdb, h21, hdb2]
        have hall := buildInsertValues_fst docId issues vals hb
        rw [get_result_insertBatch docId vals hall _]
        rw [get_result_eq_nil_of_not_existsFor hex]
        simp
  · intro db docId hex
    exact get_result_eq_nil_of_not_existsFor hex

/-- Witness for C7: a one-chunk job with one found issue and a committing
insert, whose persisted rows round-trip; and the empty store returns the
empty list. -/
theorem C7_witness :
    (∃ issues vals,
      ({ document_id := 1, analysis_result := "completed_with_issues",
         issues_found := some [{ text := some "x", severity := some "minor" }],
         progress := 100, current_chunk := some 1, total_chunks := some 1,
         inserted_issues := some 1 } : TaskResult).issues_found = some issues ∧
      buildInsertValues 1 issues = .ok vals ∧
      (get_result (analyze_document_task
          { parse := parseOneIssue, fetch := .ok ["c"],
            infer := fun _ _ => .ok "\x7bj\x7d", insertError := none }
          db0 1 "en" false).2.1 1).map
        (fun row => (row.document_id, row.issue, row.severity)) = vals) ∧
    get_result db0 5 = [] := by
  constructor
  · exact C7_roundtrip.1
      { parse := parseOneIssue, fetch := .ok ["c"],
        infer := fun _ _ => .ok "\x7bj\x7d", insertError := none }
      db0 1 "en" false
      { document_id := 1, analysis_result := "completed_with_issues",
        issues_found := some [{ text := some "x", severity := some "minor" }],
        progress := 100, current_chunk := some 1, total_chunks := some 1,
        inserted_issues := some 1 } rfl rfl
  · exact C7_roundtrip.2 db0 5 rfl

end AIAnalyzer

namespace AIAnalyzer

/-! ### Claim C10 -/

/-- Claim C10: a parsed `issues_found` payload whose issues list contains an
object missing the `"text"` or `"severity"` key does not fail the job: the
`KeyError` raised while building the insert batch is caught by the
insert-error handler, the job terminates `completed_with_issues_but_insert_failed`
with the error captured, and no row of that batch is persisted. -/
theorem C10_keyerror_captured (env : Env) (db : DB) (docId : Int)
    (lang : String) (retry : Bool) (r : TaskResult) (issues : List IssueObj)
    (h : (analyze_document_task env db docId lang retry).2.2 = .ok r)
    (hif : r.issues_found = some issues)
    (hbad : ∃ is ∈ issues, is.text = none ∨ is.severity = none) :
    r.analysis_result = "completed_with_issues_but_insert_failed" ∧
    r.error.isSome = true ∧
    ((analyze_document_task env db docId lang retry).2.1).countFor docId = 0 ∧
    r.analysis_result ≠ "failed" := by
  obtain ⟨fin, hevs, hdb, hresE, hfin⟩ := analyze_shape env db docId lang retry
  rw [hresE] at h
  rcases runAsync_cases env db docId lang retry with
    ⟨r', h2, hres', hif'⟩ | ⟨e, h2⟩ |
    ⟨issues2, r3, hne, hif3, hp3, h22, h21, hex⟩
  · obtain rfl : r' = r := by
      have := h2.symm.trans h
      simpa using this
    rw [hif] at hif'
    simp at hif'
  · rw [h2] at h
    simp at h
  · rw [h22] at h
    have hr : (persistPhase env
        (if retry = true then db.deleteAll docId else db) docId r3 issues2).2 =
        r := by
      simpa using h
    have hsame : issues2 = issues := by
      have hx : r.issues_found = some issues2 := by
        rw [← hr, persistPhase_issues_found, hif3]
      rw [hif] at hx
      exact (Option.some.injEq _ _ ▸ hx).symm
    subst hsame
    obtain ⟨e, he⟩ := buildInsertValues_error_of_bad docId issues2 hbad
    rw [persistPhase_eq_of_buildError env _ docId r3 issues2 e he] at hr h21
    refine ⟨?_, ?_, ?_, ?_⟩
    · rw [← hr]
    · rw [← hr]
      rfl
    · rw [hdb, h21]
      exact countFor_eq_zero_of_not_existsFor hex
    · rw [← hr]
      simp

/-- Witness for C10: the concrete missing-`severity` run. -/
theorem C10_witness :
    (analyze_document_task envKeyError db0 2 "en" false).2.2 =
      .ok keyErrorResult ∧
    (keyErrorResult.analysis_result = "completed_with_issues_but_insert_failed" ∧
      keyErrorResult.error.isSome = true ∧
      ((analyze_document_task envKeyError db0 2 "en" false).2.1).countFor 2 = 0 ∧
      keyErrorResult.analysis_result ≠ "failed") := by
  constructor
  · rfl
  · exact C10_keyerror_captured envKeyError db0 2 "en" false keyErrorResult
      [{ text := some "x", severity := none }] rfl rfl
      ⟨{ text := some "x", severity := none }, by simp, Or.inr rfl⟩

end AIAnalyzer
